import Mathlib

/-!
Verification development for the Cedar policy harness of the sondera SDK.

The definitions below are a shallow embedding of the Python modules
`sondera/harness/cedar/schema.py` and `sondera/harness/cedar/harness.py`.
JSON documents that the Python code receives already parsed (via json.loads)
are modelled by the `Json` inductive; Python exceptions are modelled by the
`PyExc` inductive and fallible code returns `Except PyExc`.
-/

namespace Sondera

/-- A parsed JSON document, as produced by json.loads.  Python dicts are
modelled as association lists in insertion order; parsed dicts have unique
keys (json.loads keeps one value per key). -/
inductive Json where
  | null : Json
  | bool (b : Bool) : Json
  | num (n : Int) : Json
  | str (s : String) : Json
  | arr (elems : List Json) : Json
  | obj (fields : List (String × Json)) : Json

/-- Python equality between a str and an arbitrary value: true exactly when
the value is an equal str.  Used for membership of a property name in the
set built from the required list. -/
def jsonStrEq (n : String) : Json → Bool
  | .str s => n = s
  | _ => false

/-- The Python exception classes this embedding distinguishes.  The first
five are builtins; policyError models sondera.exceptions.PolicyError. -/
inductive PyExc where
  | valueError (msg : String) : PyExc
  | runtimeError (msg : String) : PyExc
  | keyError (msg : String) : PyExc
  | attributeError (msg : String) : PyExc
  | typeError (msg : String) : PyExc
  | policyError (msg : String) : PyExc
deriving DecidableEq, Repr

/-- PyExc.isPolicyError is true exactly for the sondera PolicyError class. -/
def PyExc.isPolicyError : PyExc → Bool
  | .policyError _ => true
  | _ => false

/-- dict.get on a string-keyed Python dict (association list). -/
def pyGet : List (String × Json) → String → Option Json
  | [], _ => none
  | (k, v) :: rest, key => if k = key then some v else pyGet rest key

theorem pyGet_sizeOf {fields : List (String × Json)} {key : String} {v : Json}
    (h : pyGet fields key = some v) : sizeOf v < sizeOf fields := by
  induction fields with
  | nil => simp [pyGet] at h
  | cons kv rest ih =>
    obtain ⟨k, w⟩ := kv
    by_cases hk : k = key
    · simp [pyGet, hk] at h
      subst h
      simp
      omega
    · simp [pyGet, hk] at h
      have := ih h
      simp
      omega

/-! Embedding of sondera/harness/cedar/schema.py -/

/-- Cedar SchemaType, as built by schema.py.  A Record attribute is a triple
(name, type, required); the required flag defaults to true in the source and
is set to false exactly where the source assigns required = False. -/
inductive SchemaType where
  | Record (attributes : List (String × SchemaType × Bool)) : SchemaType
  | SetOf (element : SchemaType) : SchemaType
  | Str : SchemaType
  | Long : SchemaType
  | Boolean : SchemaType
  | Entity (name : String) : SchemaType

/-- str.lower, implemented charwise (faithful for the ASCII tags the
source compares against). -/
def pyLower (s : String) : String := String.mk (s.data.map Char.toLower)

/-- The type tag of a schema dict: schema.get("type", "object").lower().
Missing tag defaults to the string "object"; a non-string tag raises
AttributeError at .lower() in the source. -/
def pyTypeTag (fields : List (String × Json)) : Except PyExc String :=
  match pyGet fields "type" with
  | none => .ok "object"
  | some (.str s) => .ok (pyLower s)
  | some _ => .error (.attributeError "lower")

/-- required_fields = set(schema.get("required", [])).  A string iterates
into its characters; any other non-list value raises TypeError at set(). -/
def pyRequired (fields : List (String × Json)) : Except PyExc (List Json) :=
  match pyGet fields "required" with
  | none => .ok []
  | some (.arr xs) => .ok xs
  | some (.str s) => .ok (s.data.map (fun c => Json.str (String.mk [c])))
  | some _ => .error (.typeError "argument of set() is not iterable")

/-- properties = schema.get("properties", {}); a non-dict value raises
AttributeError at .items() when the loop starts. -/
def pyProps (fields : List (String × Json)) : Except PyExc (List (String × Json)) :=
  match pyGet fields "properties" with
  | none => .ok []
  | some (.obj ps) => .ok ps
  | some _ => .error (.attributeError "items")

theorem pyProps_sizeOf {fields : List (String × Json)} {ps : List (String × Json)}
    (h : pyProps fields = .ok ps) : sizeOf ps < 1 + sizeOf fields := by
  unfold pyProps at h
  cases hg : pyGet fields "properties" with
  | none =>
    rw [hg] at h
    cases h
    cases fields <;> simp <;> omega
  | some v =>
    rw [hg] at h
    have hv := pyGet_sizeOf hg
    cases v <;> simp at h
    subst h
    simp at hv
    omega

mutual

/-- json_schema_to_cedar_type from schema.py: object becomes a Record whose
attributes recurse (required flag from the required list), array becomes a
Set of its items type, string becomes String, number and integer become
Long, boolean becomes Boolean, any other recognized-as-string tag and any
non-dict input become String.  The missing items default is the empty dict,
whose conversion is Record []. -/
def json_schema_to_cedar_type (schema : Json) : Except PyExc SchemaType :=
  match schema with
  | .obj fields =>
    match pyTypeTag fields with
    | .error e => .error e
    | .ok jt =>
      if jt = "object" then
        match pyRequired fields with
        | .error e => .error e
        | .ok reqd =>
          match hp : pyProps fields with
          | .error e => .error e
          | .ok props =>
            match convert_properties reqd props with
            | .error e => .error e
            | .ok attrs => .ok (.Record attrs)
      else if jt = "array" then
        match hi : pyGet fields "items" with
        | some items =>
          match json_schema_to_cedar_type items with
          | .error e => .error e
          | .ok elemTy => .ok (.SetOf elemTy)
        | none => .ok (.SetOf (.Record []))
      else if jt = "string" then .ok .Str
      else if jt = "number" ∨ jt = "integer" then .ok .Long
      else if jt = "boolean" then .ok .Boolean
      else .ok .Str
  | _ => .ok .Str
termination_by sizeOf schema
decreasing_by
  all_goals simp
  all_goals first
    | (have h9 := pyProps_sizeOf hp; omega)
    | (have h9 := pyGet_sizeOf hi; simp at h9; omega)
    | omega

/-- The properties loop of the object branch: each attribute converts its
schema and is marked required exactly when its name is in the required set. -/
def convert_properties (reqd : List Json) (props : List (String × Json)) :
    Except PyExc (List (String × SchemaType × Bool)) :=
  match props with
  | [] => .ok []
  | (n, pj) :: rest =>
    match json_schema_to_cedar_type pj with
    | .error e => .error e
    | .ok t =>
      match convert_properties reqd rest with
      | .error e => .error e
      | .ok restAttrs => .ok ((n, t, reqd.any (jsonStrEq n)) :: restAttrs)
termination_by sizeOf props
decreasing_by
  all_goals simp
  all_goals try omega

end

/-- A tool of an agent, from sondera.types (types.py).  The two schema
fields hold the parsed value of the JSON-Schema text when it is present and
non-empty (openai_json_schema_to_cedar_type returns None on falsy input;
json text parsing is treated as given). -/
structure Tool where
  id : Option String
  name : String
  description : String
  parameters_json_schema : Option Json
  response_json_schema : Option Json

/-- An agent, from sondera.types (types.py). -/
structure Agent where
  id : String
  provider_id : String
  name : String
  description : String
  instruction : String
  tools : List Tool

/-- The truthiness test of tool_to_action on a converted type:
params_type.type == "Record" and params_type.attributes. -/
def is_nonempty_record : SchemaType → Bool
  | .Record attrs => !attrs.isEmpty
  | _ => false

/-- The wrapping condition of the schema generator (tool_to_action): a
converted response or parameters type is wrapped as a Record with a single
value attribute exactly when it is not a Record with at least one
attribute. -/
def schema_wraps_response (rs : Json) : Except PyExc Bool :=
  match json_schema_to_cedar_type rs with
  | .error e => .error e
  | .ok t => .ok (!is_nonempty_record t)

/-- Cedar appliesTo clause of an action. -/
structure AppliesTo where
  principalTypes : List String
  resourceTypes : List String
  context : Option SchemaType

/-- Cedar action definition. -/
structure Action where
  appliesTo : AppliesTo

/-- Cedar entity type definition (shape, enum or memberOfTypes as used by
agent_to_cedar_schema). -/
structure EntityType where
  shape : Option SchemaType
  enum : Option (List String)
  memberOfTypes : List String

/-- One Cedar namespace: entity types and actions, in insertion order. -/
structure NamespaceDefinition where
  entityTypes : List (String × EntityType)
  actions : List (String × Action)

/-- The Cedar schema: a single namespace keyed by the sanitized agent
name. -/
structure CedarSchema where
  root : List (String × NamespaceDefinition)

/-- The context attribute built from a converted parameters or response
type: used directly when it is a Record with attributes (marked optional),
wrapped as a Record with a required value attribute otherwise. -/
def typed_context_attribute (t : SchemaType) : SchemaType :=
  if is_nonempty_record t then t else .Record [("value", t, true)]

/-- tool_to_action from schema.py: context holds optional typed parameters
and response (when a schema is present), plus always-present optional
parameters_json and response_json string fallbacks; the action applies to
principal Agent and resource Trajectory. -/
def tool_to_action (tool : Tool) : Except PyExc Action := do
  let params_attrs : List (String × SchemaType × Bool) ←
    match tool.parameters_json_schema with
    | none => pure []
    | some ps => do
      let t ← json_schema_to_cedar_type ps
      pure [("parameters", typed_context_attribute t, false)]
  let response_attrs : List (String × SchemaType × Bool) ←
    match tool.response_json_schema with
    | none => pure []
    | some rs => do
      let t ← json_schema_to_cedar_type rs
      pure [("response", typed_context_attribute t, false)]
  let context_attributes :=
    params_attrs ++ [("parameters_json", SchemaType.Str, false)] ++
    response_attrs ++ [("response_json", SchemaType.Str, false)]
  pure { appliesTo := { principalTypes := ["Agent"], resourceTypes := ["Trajectory"],
                        context := some (.Record context_attributes) } }

/-- The fixed Prompt action: principal Agent, resource Message, no typed
context. -/
def prompt_action : Action :=
  { appliesTo := { principalTypes := ["Agent"], resourceTypes := ["Message"],
                   context := none } }

/-- name.replace(" ", "_").replace("-", "_"), charwise: 32 is the space
character, 45 the dash and 95 the underscore. -/
def sanitize_char (c : Char) : Char :=
  if c.toNat = 32 ∨ c.toNat = 45 then Char.ofNat 95 else c

/-- Sanitization of agent and tool names into Cedar identifiers. -/
def sanitize_name (s : String) : String := String.mk (s.data.map sanitize_char)

/-- Python dict insertion d[k] = v: replaces the value in place when the
key exists, appends otherwise. -/
def dictInsert {α : Type} (d : List (String × α)) (k : String) (v : α) :
    List (String × α) :=
  if (d.find? (fun kv => kv.1 == k)).isSome then
    d.map (fun kv => if kv.1 == k then (k, v) else kv)
  else d ++ [(k, v)]

/-- The fixed entity types of agent_to_cedar_schema: Agent, Tool, Role,
Message and Trajectory. -/
def default_entity_types : List (String × EntityType) :=
  [ ("Agent",
     { shape := some (.Record
         [ ("name", .Str, true)
         , ("provider_id", .Str, true)
         , ("tools", .SetOf (.Entity "Tool"), true) ])
     , enum := none, memberOfTypes := [] })
  , ("Tool",
     { shape := some (.Record
         [ ("name", .Str, true)
         , ("description", .Str, true) ])
     , enum := none, memberOfTypes := [] })
  , ("Role", { shape := none, enum := some ["user", "model", "system", "tool"]
             , memberOfTypes := [] })
  , ("Message",
     { shape := some (.Record
         [ ("content", .Str, true)
         , ("role", .Entity "Role", true) ])
     , enum := none, memberOfTypes := ["Trajectory"] })
  , ("Trajectory",
     { shape := some (.Record [("step_count", .Long, true)])
     , enum := none, memberOfTypes := [] }) ]

/-- agent_to_cedar_schema from schema.py: one namespace keyed by the
sanitized agent name, the fixed entity types, one action per tool keyed by
the sanitized tool name (later tools replace earlier ones on a key
collision, as Python dict assignment does), plus the Prompt action.  The
final validate call goes to the external Cedar evaluator and is outside
this embedding. -/
def agent_to_cedar_schema (agent : Agent) : Except PyExc CedarSchema := do
  let actions ← agent.tools.foldlM
    (fun acts tool => do
      let act ← tool_to_action tool
      pure (dictInsert acts (sanitize_name tool.name) act))
    ([] : List (String × Action))
  let actions := dictInsert actions "Prompt" prompt_action
  pure { root := [(sanitize_name agent.name,
                   { entityTypes := default_entity_types, actions := actions })] }

/-- The action map of the single namespace of a schema. -/
def schema_actions (s : CedarSchema) : List (String × Action) :=
  match s.root with
  | (_, ns) :: _ => ns.actions
  | [] => []

/-- The action names of the single namespace of a schema. -/
def schema_action_names (s : CedarSchema) : List String :=
  (schema_actions s).map Prod.fst

/-! Embedding of sondera/harness/cedar/harness.py -/

/-- A parsed Cedar policy as the harness sees it through the evaluator
library: the internal identifier assigned by the evaluator (policy.id()),
the effect as a string (str(policy.effect()), Permit or Forbid), and the
annotation map (policy.annotations()). -/
structure CedarPolicy where
  internalId : String
  effect : String
  annots : List (String × String)
deriving DecidableEq, Repr

/-- self._policy_set.policy(internal_id). -/
def findPolicy (ps : List CedarPolicy) (pid : String) : Option CedarPolicy :=
  ps.find? (fun p => p.internalId == pid)

/-- Lookup in an annotation map (Python dict access or .get). -/
def annGet (anns : List (String × String)) (k : String) : Option String :=
  (anns.find? (fun kv => kv.1 == k)).map Prod.snd

/-- The evaluator response: str(response.decision) (Allow or Deny) and
response.reason, the internal ids of the determining policies. -/
structure CedarResponse where
  decision : String
  reason : List String
deriving DecidableEq, Repr

/-- Modelled from the spec: PolicyMetadata carries the policy id, a human
description, whether the policy is an escalation, the escalation target
string, and free-form custom annotation key/values.  Its declaration lives
in sondera.types outside this snapshot; the fields are exactly those the
harness constructor call populates. -/
structure PolicyMetadata where
  id : String
  description : String
  escalate : Bool
  escalate_arg : String
  custom : List (String × String)
deriving DecidableEq, Repr

/-- The adjudication decision, from sondera.types. -/
inductive Decision where
  | ALLOW : Decision
  | DENY : Decision
  | ESCALATE : Decision
deriving DecidableEq, Repr

/-- The adjudication result as the harness builds it: decision, reason and
the list of PolicyMetadata of the policies that determined the outcome
(empty by default). -/
structure Adjudication where
  decision : Decision
  reason : String
  policies : List PolicyMetadata := []
deriving DecidableEq, Repr

/-- The PolicyMetadata built for one matched policy inside
_convert_cedar_response_to_adjudication, given its annotation map and the
value of its id annotation. -/
def policy_metadata_of (anns : List (String × String)) (idAnn : String) :
    PolicyMetadata :=
  { id := idAnn
  , description := (annGet anns "reason").getD ""
  , escalate := (annGet anns "escalate").isSome
  , escalate_arg := (annGet anns "escalate").getD ""
  , custom := anns.filter
      (fun kv => !(kv.1 == "id" || kv.1 == "reason" || kv.1 == "escalate")) }

/-- Resolution of one internal policy id returned by the evaluator: a
missing policy raises RuntimeError, a missing id annotation raises
KeyError. -/
def resolve_policy (ps : List CedarPolicy) (internal_id : String) :
    Except PyExc PolicyMetadata :=
  match findPolicy ps internal_id with
  | none => .error (.runtimeError
      ("Policy " ++ internal_id ++ " not found in policy set"))
  | some policy =>
    match annGet policy.annots "id" with
    | none => .error (.keyError "id")
    | some idAnn => .ok (policy_metadata_of policy.annots idAnn)

/-- The loop of _convert_cedar_response_to_adjudication over
response.reason, in order. -/
def collect_policy_metadata (ps : List CedarPolicy) :
    List String → Except PyExc (List PolicyMetadata)
  | [] => .ok []
  | pid :: rest =>
    match resolve_policy ps pid with
    | .error e => .error e
    | .ok m =>
      match collect_policy_metadata ps rest with
      | .error e => .error e
      | .ok ms => .ok (m :: ms)

/-- _convert_cedar_response_to_adjudication from harness.py: resolve every
returned policy id, split the metadata into escalate and non-escalate, then
apply the merge rule. -/
def convert_cedar_response_to_adjudication (ps : List CedarPolicy)
    (resp : CedarResponse) : Except PyExc Adjudication :=
  match collect_policy_metadata ps resp.reason with
  | .error e => .error e
  | .ok metas =>
    if resp.decision = "Allow" then
      .ok { decision := .ALLOW, reason := "Allowed by all policies"
          , policies := metas.filter (fun m => !m.escalate) }
    else if !(metas.filter (fun m => !m.escalate)).isEmpty then
      .ok { decision := .DENY, reason := "Denied by policies"
          , policies := metas.filter (fun m => !m.escalate) }
    else if !(metas.filter (fun m => m.escalate)).isEmpty then
      .ok { decision := .ESCALATE, reason := "Escalated by policies"
          , policies := metas.filter (fun m => m.escalate) }
    else
      .ok { decision := .DENY, reason := "No matching permit policy"
          , policies := [] }

/-- The escalate check of __init__: the policy carries the escalate
annotation while str(policy.effect()) is not Forbid. -/
def escalate_violation (policy : CedarPolicy) : Bool :=
  (annGet policy.annots "escalate").isSome && !(policy.effect == "Forbid")

/-- The policy validation loop of CedarPolicyHarness.__init__, with the
seen-id set and the warnings logged so far (warnings are returned in log
order on success).  A policy without an id annotation raises ValueError; a
duplicate id only logs a warning; escalate on a non-forbid policy raises
ValueError. -/
def validate_policies_aux (seen : List String) (warnings : List String) :
    List CedarPolicy → Except PyExc (List String)
  | [] => .ok warnings.reverse
  | policy :: rest =>
    match annGet policy.annots "id" with
    | none => .error (.valueError
        ("Policy " ++ policy.internalId ++ " is missing required @id annotation."))
    | some policy_id =>
      let warnings := if policy_id ∈ seen
        then ("Duplicate policy @id: " ++ policy_id) :: warnings else warnings
      if escalate_violation policy = true then
        .error (.valueError
          ("Policy " ++ policy_id ++ " has @escalate but is not a forbid policy. " ++
           "@escalate is only valid on forbid policies."))
      else validate_policies_aux (policy_id :: seen) warnings rest

/-- Load-time validation of a policy set (the loop of __init__). -/
def validate_policy_set (policies : List CedarPolicy) : Except PyExc (List String) :=
  validate_policies_aux [] [] policies

/-- Lifecycle stage of a step, from sondera.types. -/
inductive Stage where
  | PRE_RUN : Stage
  | PRE_MODEL : Stage
  | POST_MODEL : Stage
  | PRE_TOOL : Stage
  | POST_TOOL : Stage
  | POST_RUN : Stage
deriving DecidableEq, Repr

/-- Role of a step, from sondera.types. -/
inductive Role where
  | USER : Role
  | MODEL : Role
  | TOOL : Role
  | SYSTEM : Role
deriving DecidableEq, Repr

/-- Content of a step, from sondera.types: prompt text, tool request with
name and args dict, or tool response with name and payload. -/
inductive Content where
  | promptC (text : String) : Content
  | toolRequestC (tool_id : String) (args : List (String × Json)) : Content
  | toolResponseC (tool_id : String) (response : Json) : Content

mutual

/-- json.dumps, minimally modelled (quotes are not escaped; the claims
never inspect the serialized text). -/
def Json.dumps : Json → String
  | .null => "null"
  | .bool true => "true"
  | .bool false => "false"
  | .num n => toString n
  | .str s => "\"" ++ s ++ "\""
  | .arr xs => "[" ++ Json.dumpsElems xs ++ "]"
  | .obj fs => "\x7b" ++ Json.dumpsFields fs ++ "\x7d"

/-- Comma-separated serialization of array elements. -/
def Json.dumpsElems : List Json → String
  | [] => ""
  | [x] => Json.dumps x
  | x :: rest => Json.dumps x ++ ", " ++ Json.dumpsElems rest

/-- Comma-separated serialization of object fields. -/
def Json.dumpsFields : List (String × Json) → String
  | [] => ""
  | [(k, v)] => "\"" ++ k ++ "\": " ++ Json.dumps v
  | (k, v) :: rest => "\"" ++ k ++ "\": " ++ Json.dumps v ++ ", " ++ Json.dumpsFields rest

end

/-- A Cedar entity uid: type and id. -/
structure EntityUid where
  type : String
  id : String

/-- An authorization request as the harness builds it: principal, action,
resource and the context dict (the schema argument goes to the external
evaluator and is outside this embedding). -/
structure Request where
  principal : EntityUid
  action : EntityUid
  resource : EntityUid
  context : Option (List (String × Json))

/-- _message_request from harness.py: the resource is a freshly created
Message entity child of the trajectory (its uuid is passed in here; the
message content and role are stored on that entity in the authorizer). -/
def message_request (ns : String) (agent_uid : EntityUid) (msg_id : String) :
    Request :=
  { principal := agent_uid
  , action := { type := ns ++ "::Action", id := "Prompt" }
  , resource := { type := ns ++ "::Message", id := msg_id }
  , context := none }

/-- _tool_request from harness.py: context always carries parameters_json,
and typed parameters exactly when the agent has a tool of that name with a
parameters schema. -/
def tool_request (ns : String) (agent : Agent) (agent_uid trajectory_uid : EntityUid)
    (tool_id : String) (args : List (String × Json)) : Request :=
  let action_uid : EntityUid :=
    { type := ns ++ "::Action", id := sanitize_name tool_id }
  let context_data := [("parameters_json", Json.str (Json.dumps (Json.obj args)))]
  let context_data :=
    match agent.tools.find? (fun t => t.name == tool_id) with
    | some tool =>
      if tool.parameters_json_schema.isSome
      then context_data ++ [("parameters", Json.obj args)]
      else context_data
    | none => context_data
  { principal := agent_uid, action := action_uid, resource := trajectory_uid
  , context := some context_data }

/-- The wrapping condition of _tool_response: the cached response schema
dict wraps the raw response value exactly when its type key is not the
string object or OBJECT (a missing or non-string type also wraps); a cached
non-dict schema raises AttributeError at .get. -/
def harness_wraps_response (response_schema : Json) : Except PyExc Bool :=
  match response_schema with
  | .obj fields =>
    .ok (match pyGet fields "type" with
      | some (.str s) => !(s == "object" || s == "OBJECT")
      | some _ => true
      | none => true)
  | _ => .error (.attributeError "get")

/-- The response-schema cache built in _build_authorizer: tool name to the
parsed response schema, for tools that declare one (dict assignment, so a
later tool with the same name replaces an earlier one). -/
def tool_response_schemas (agent : Agent) : List (String × Json) :=
  agent.tools.foldl
    (fun d t => match t.response_json_schema with
      | some s => dictInsert d t.name s
      | none => d)
    []

/-- _tool_response from harness.py: context always carries response_json;
when the tool has a cached response schema, the typed response is added,
wrapped as a value record exactly under harness_wraps_response. -/
def tool_response_request (ns : String) (agent : Agent)
    (agent_uid trajectory_uid : EntityUid) (tool_id : String) (response : Json) :
    Except PyExc Request :=
  let action_uid : EntityUid :=
    { type := ns ++ "::Action", id := sanitize_name tool_id }
  let context_data := [("response_json", Json.str (Json.dumps response))]
  match pyGet (tool_response_schemas agent) tool_id with
  | none =>
    .ok { principal := agent_uid, action := action_uid, resource := trajectory_uid
        , context := some context_data }
  | some response_schema =>
    match harness_wraps_response response_schema with
    | .error e => .error e
    | .ok wraps =>
      let context_data := context_data ++
        [("response", if wraps then Json.obj [("value", response)] else response)]
      .ok { principal := agent_uid, action := action_uid, resource := trajectory_uid
          , context := some context_data }

/-- The mutable trajectory state of an active (initialized) harness: the
trajectory id, the _trajectory_step_count attribute, and the step_count
attribute of the Trajectory entity held by the authorizer. -/
structure HarnessState where
  trajectory_id : String
  trajectory_step_count : Nat
  traj_entity_step_count : Nat
deriving DecidableEq, Repr

/-- The state built by a fresh trajectory (the initialization method):
step counter reset to zero and the authorizer created with a Trajectory
entity whose step_count is zero. -/
def initTrajectoryState (tid : String) : HarnessState :=
  { trajectory_id := tid, trajectory_step_count := 0, traj_entity_step_count := 0 }

/-- One adjudicate call on an active harness: the step counter is
incremented and upserted onto the Trajectory entity first, then the
(stage, content) pair is routed; the three recognized shapes go to the
evaluator ev and through the merge rule, every other combination is allowed
by default without consulting the evaluator.  The fresh message uuid of the
prompt path is passed in as msg_id; the role and prompt text are stored on
the Message entity in the authorizer, outside this Request model. -/
def adjudicate (ns : String) (agent : Agent) (ps : List CedarPolicy)
    (ev : Request → CedarResponse) (st : HarnessState)
    (stage : Stage) (role : Role) (msg_id : String) (content : Content) :
    HarnessState × Except PyExc Adjudication :=
  let agent_uid : EntityUid := { type := ns ++ "::Agent", id := agent.id }
  let trajectory_uid : EntityUid :=
    { type := ns ++ "::Trajectory", id := st.trajectory_id }
  let count := st.trajectory_step_count + 1
  let st' : HarnessState :=
    { st with trajectory_step_count := count, traj_entity_step_count := count }
  match stage, content with
  | Stage.PRE_MODEL, Content.promptC _ | Stage.POST_MODEL, Content.promptC _ =>
    (st', convert_cedar_response_to_adjudication ps
            (ev (message_request ns agent_uid msg_id)))
  | Stage.PRE_TOOL, Content.toolRequestC tool_id args =>
    (st', convert_cedar_response_to_adjudication ps
            (ev (tool_request ns agent agent_uid trajectory_uid tool_id args)))
  | Stage.POST_TOOL, Content.toolResponseC tool_id response =>
    (st', match tool_response_request ns agent agent_uid trajectory_uid
                  tool_id response with
          | .error e => .error e
          | .ok req => convert_cedar_response_to_adjudication ps (ev req))
  | _, _ =>
    (st', .ok { decision := .ALLOW, reason := "Non-tool content allowed by default" })

/-- Whether a (stage, content) pair is routed to the evaluator (the three
recognized shapes of the adjudicate match). -/
def routes_to_evaluator : Stage → Content → Bool
  | Stage.PRE_MODEL, Content.promptC _ => true
  | Stage.POST_MODEL, Content.promptC _ => true
  | Stage.PRE_TOOL, Content.toolRequestC _ _ => true
  | Stage.POST_TOOL, Content.toolResponseC _ _ => true
  | _, _ => false

/-- The inputs of one adjudicate call. -/
structure CallInput where
  stage : Stage
  role : Role
  msg_id : String
  content : Content

/-- Sequential adjudicate calls against one trajectory: the state after
running every call. -/
def run_adjudications (ns : String) (agent : Agent) (ps : List CedarPolicy)
    (ev : Request → CedarResponse) (st : HarnessState) :
    List CallInput → HarnessState
  | [] => st
  | c :: rest =>
    run_adjudications ns agent ps ev
      (adjudicate ns agent ps ev st c.stage c.role c.msg_id c.content).1 rest

/-- The step_count attribute of the Trajectory entity as the evaluator
observes it during each successive call (the value after the upsert that
each call performs before routing). -/
def observed_step_counts (ns : String) (agent : Agent) (ps : List CedarPolicy)
    (ev : Request → CedarResponse) (st : HarnessState) :
    List CallInput → List Nat
  | [] => []
  | c :: rest =>
    let st' := (adjudicate ns agent ps ev st c.stage c.role c.msg_id c.content).1
    st'.traj_entity_step_count :: observed_step_counts ns agent ps ev st' rest

/-! Helper lemmas -/

theorem except_ok_bind {ε α β : Type} (a : α) (k : α → Except ε β) :
    (Except.ok a >>= k) = k a := rfl

theorem except_map_ok {ε α β : Type} (f : α → β) (a : α) :
    Except.map f (Except.ok a : Except ε α) = .ok (f a) := rfl

theorem collect_length {ps : List CedarPolicy} {l : List String}
    {metas : List PolicyMetadata}
    (h : collect_policy_metadata ps l = .ok metas) : metas.length = l.length := by
  induction l generalizing metas with
  | nil => simp [collect_policy_metadata] at h; subst h; rfl
  | cons pid rest ih =>
    unfold collect_policy_metadata at h
    cases hr : resolve_policy ps pid with
    | error e => rw [hr] at h; cases h
    | ok m =>
      rw [hr] at h
      cases hc : collect_policy_metadata ps rest with
      | error e => rw [hc] at h; cases h
      | ok ms =>
        rw [hc] at h
        cases h
        simp [ih hc]

theorem collect_get {ps : List CedarPolicy} {l : List String}
    {metas : List PolicyMetadata}
    (h : collect_policy_metadata ps l = .ok metas) :
    ∀ i, (hi : i < l.length) → ∃ (hm : i < metas.length),
      resolve_policy ps (l.get ⟨i, hi⟩) = .ok (metas.get ⟨i, hm⟩) := by
  induction l generalizing metas with
  | nil => intro i hi; simp at hi
  | cons pid rest ih =>
    unfold collect_policy_metadata at h
    cases hr : resolve_policy ps pid with
    | error e => rw [hr] at h; cases h
    | ok m =>
      rw [hr] at h
      cases hc : collect_policy_metadata ps rest with
      | error e => rw [hc] at h; cases h
      | ok ms =>
        rw [hc] at h
        cases h
        intro i hi
        cases i with
        | zero => exact ⟨by simp, hr⟩
        | succ j =>
          have hj : j < rest.length := by simpa using hi
          obtain ⟨hm, hres⟩ := ih hc j hj
          exact ⟨by simpa using Nat.succ_lt_succ hm, hres⟩

theorem exists_reason_of_mem_meta {ps : List CedarPolicy} {l : List String}
    {metas : List PolicyMetadata}
    (h : collect_policy_metadata ps l = .ok metas) :
    ∀ m ∈ metas, ∃ pid ∈ l, resolve_policy ps pid = .ok m := by
  induction l generalizing metas with
  | nil => simp [collect_policy_metadata] at h; subst h; simp
  | cons pid rest ih =>
    unfold collect_policy_metadata at h
    cases hr : resolve_policy ps pid with
    | error e => rw [hr] at h; cases h
    | ok m0 =>
      rw [hr] at h
      cases hc : collect_policy_metadata ps rest with
      | error e => rw [hc] at h; cases h
      | ok ms =>
        rw [hc] at h
        cases h
        intro m hm
        rcases List.mem_cons.mp hm with hm | hm
        · exact ⟨pid, by simp, by rw [hm]; exact hr⟩
        · obtain ⟨pid', hpid', hres'⟩ := ih hc m hm
          exact ⟨pid', by simp [hpid'], hres'⟩

theorem exists_meta_of_mem_reason {ps : List CedarPolicy} {l : List String}
    {metas : List PolicyMetadata}
    (h : collect_policy_metadata ps l = .ok metas) :
    ∀ pid ∈ l, ∃ m ∈ metas, resolve_policy ps pid = .ok m := by
  induction l generalizing metas with
  | nil => simp
  | cons pid0 rest ih =>
    unfold collect_policy_metadata at h
    cases hr : resolve_policy ps pid0 with
    | error e => rw [hr] at h; cases h
    | ok m0 =>
      rw [hr] at h
      cases hc : collect_policy_metadata ps rest with
      | error e => rw [hc] at h; cases h
      | ok ms =>
        rw [hc] at h
        cases h
        intro pid hpid
        rcases List.mem_cons.mp hpid with hp | hp
        · exact ⟨m0, by simp, by rw [hp]; exact hr⟩
        · obtain ⟨m, hm, hres⟩ := ih hc pid hp
          exact ⟨m, by simp [hm], hres⟩

/-- The escalate flag of a resolved metadata reflects the escalate
annotation of the policy the internal id resolves to. -/
theorem resolve_escalate {ps : List CedarPolicy} {pid : String}
    {p : CedarPolicy} {m : PolicyMetadata}
    (hfind : findPolicy ps pid = some p)
    (hres : resolve_policy ps pid = .ok m) :
    m.escalate = (annGet p.annots "escalate").isSome ∧
    m.escalate_arg = (annGet p.annots "escalate").getD "" := by
  cases hid : annGet p.annots "id" with
  | none => simp [resolve_policy, hfind, hid] at hres
  | some idAnn =>
    simp [resolve_policy, hfind, hid] at hres
    rw [← hres]
    exact ⟨rfl, rfl⟩

/-! Concrete fixtures used by witnesses and counterexamples -/

/-- A plain forbid policy with id and reason annotations. -/
def plainForbidPolicy : CedarPolicy :=
  { internalId := "policy0", effect := "Forbid"
  , annots := [("id", "deny-execute"), ("reason", "Dangerous command")] }

/-- A forbid policy carrying the escalate annotation. -/
def escalateForbidPolicy : CedarPolicy :=
  { internalId := "policy1", effect := "Forbid"
  , annots := [("id", "escalate-execute"), ("escalate", "security-team")] }

/-- A second escalate forbid policy with a different target. -/
def escalateForbidPolicyB : CedarPolicy :=
  { internalId := "policy2", effect := "Forbid"
  , annots := [("id", "escalate-2"), ("escalate", "team-b")] }

/-- A permit policy wrongly carrying the escalate annotation. -/
def escalatePermitPolicy : CedarPolicy :=
  { internalId := "policy3", effect := "Permit"
  , annots := [("id", "esc-permit"), ("escalate", "team")] }

/-! Claim theorems -/

/-- C1: when the evaluator effect is deny and at least one matched policy
has no escalate annotation, the adjudication is DENY and its policy list is
exactly the matched non-escalate metadata, never a matched escalate
policy. -/
theorem escalation_subsumption (ps : List CedarPolicy) (resp : CedarResponse)
    (metas : List PolicyMetadata)
    (hc : collect_policy_metadata ps resp.reason = .ok metas)
    (hd : resp.decision = "Deny")
    (hplain : ∃ pid ∈ resp.reason, ∃ p, findPolicy ps pid = some p ∧
       annGet p.annots "escalate" = none) :
    convert_cedar_response_to_adjudication ps resp =
      .ok { decision := .DENY, reason := "Denied by policies"
          , policies := metas.filter (fun m => !m.escalate) } ∧
    ∀ m ∈ metas.filter (fun m => !m.escalate), m.escalate = false := by
  obtain ⟨pid, hpid, p, hfind, hesc⟩ := hplain
  obtain ⟨m, hm, hres⟩ := exists_meta_of_mem_reason hc pid hpid
  have hmf : m.escalate = false := by
    rw [(resolve_escalate hfind hres).1, hesc]
    rfl
  have hmem : m ∈ metas.filter (fun m => !m.escalate) :=
    List.mem_filter.mpr ⟨hm, by simp [hmf]⟩
  have hne : (metas.filter (fun m => !m.escalate)).isEmpty = false := by
    cases hfil : metas.filter (fun m => !m.escalate) with
    | nil => rw [hfil] at hmem; simp at hmem
    | cons a l => simp
  refine ⟨?_, ?_⟩
  · unfold convert_cedar_response_to_adjudication
    rw [hc, hd]
    simp [hne]
  · intro m' hm'
    simpa using (List.mem_filter.mp hm').2

/-- C1 witness: a deny matched by one plain forbid and one escalate forbid
policy yields DENY carrying only the plain forbid metadata. -/
theorem escalation_subsumption_witness :
    convert_cedar_response_to_adjudication
        [plainForbidPolicy, escalateForbidPolicy]
        { decision := "Deny", reason := ["policy0", "policy1"] } =
      .ok { decision := .DENY, reason := "Denied by policies"
          , policies := [{ id := "deny-execute", description := "Dangerous command"
                         , escalate := false, escalate_arg := "", custom := [] }] } := by
  have h := escalation_subsumption
    [plainForbidPolicy, escalateForbidPolicy]
    { decision := "Deny", reason := ["policy0", "policy1"] }
    [ { id := "deny-execute", description := "Dangerous command"
      , escalate := false, escalate_arg := "", custom := [] }
    , { id := "escalate-execute", description := ""
      , escalate := true, escalate_arg := "security-team", custom := [] } ]
    rfl rfl
    ⟨"policy0", by simp, plainForbidPolicy, rfl, rfl⟩
  simpa using h.1

/-- C2 counterexample: with effect deny and no matched policies the code
produces the reason string starting with a capital N, not the claimed
all-lowercase string. -/
theorem default_closed_reason_cex :
    convert_cedar_response_to_adjudication [] { decision := "Deny", reason := [] } =
      .ok { decision := .DENY, reason := "No matching permit policy", policies := [] }
    ∧ ("No matching permit policy" : String) ≠ "no matching permit policy" :=
  ⟨rfl, by decide⟩

/-- C2 amended: when the evaluator effect is deny and no policy matched,
the adjudication is DENY with an empty policy list and the fixed reason
"No matching permit policy". -/
theorem default_closed (ps : List CedarPolicy) (resp : CedarResponse)
    (hd : resp.decision = "Deny") (hr : resp.reason = []) :
    convert_cedar_response_to_adjudication ps resp =
      .ok { decision := .DENY, reason := "No matching permit policy"
          , policies := [] } := by
  unfold convert_cedar_response_to_adjudication
  rw [hr, hd]
  simp [collect_policy_metadata]

/-- C2 witness: the default-closed branch at a concrete empty response. -/
theorem default_closed_witness :
    convert_cedar_response_to_adjudication [plainForbidPolicy]
        { decision := "Deny", reason := [] } =
      .ok { decision := .DENY, reason := "No matching permit policy"
          , policies := [] } :=
  default_closed [plainForbidPolicy] { decision := "Deny", reason := [] } rfl rfl

/-- C3: when the evaluator effect is deny, the matched list is non-empty
and every matched policy carries the escalate annotation, the adjudication
is ESCALATE carrying exactly the matched escalate metadata, each entry with
the escalate annotation value as its escalate_arg. -/
theorem pure_escalation (ps : List CedarPolicy) (resp : CedarResponse)
    (metas : List PolicyMetadata)
    (hc : collect_policy_metadata ps resp.reason = .ok metas)
    (hd : resp.decision = "Deny")
    (hne : resp.reason ≠ [])
    (hall : ∀ pid ∈ resp.reason, ∃ p, findPolicy ps pid = some p ∧
       (annGet p.annots "escalate").isSome = true) :
    convert_cedar_response_to_adjudication ps resp =
      .ok { decision := .ESCALATE, reason := "Escalated by policies"
          , policies := metas } ∧
    metas.length = resp.reason.length ∧
    (∀ m ∈ metas, m.escalate = true) ∧
    (∀ (i : ℕ) (hi : i < resp.reason.length) (p : CedarPolicy),
       findPolicy ps (resp.reason.get ⟨i, hi⟩) = some p →
       ∃ (hm : i < metas.length),
         (metas.get ⟨i, hm⟩).escalate_arg = (annGet p.annots "escalate").getD "") := by
  have hallmeta : ∀ m ∈ metas, m.escalate = true := by
    intro m hm
    obtain ⟨pid, hpid, hres⟩ := exists_reason_of_mem_meta hc m hm
    obtain ⟨p, hfind, hesc⟩ := hall pid hpid
    rw [(resolve_escalate hfind hres).1, hesc]
  have hlen : metas.length = resp.reason.length := collect_length hc
  have hmetne : metas ≠ [] := by
    intro h0
    rw [h0] at hlen
    exact hne (List.eq_nil_of_length_eq_zero hlen.symm)
  have hfilesc : metas.filter (fun m => m.escalate) = metas :=
    List.filter_eq_self.mpr (fun m hm => by simp [hallmeta m hm])
  have hfilnon : metas.filter (fun m => !m.escalate) = [] :=
    List.filter_eq_nil.mpr (fun m hm => by simp [hallmeta m hm])
  have hescne : (metas.filter (fun m => m.escalate)).isEmpty = false := by
    rw [hfilesc]
    cases hm2 : metas with
    | nil => exact absurd hm2 hmetne
    | cons a l => simp
  refine ⟨?_, hlen, hallmeta, ?_⟩
  · unfold convert_cedar_response_to_adjudication
    rw [hc, hd]
    simp [hfilnon, hfilesc, hescne, hmetne]
  · intro i hi p hfind
    obtain ⟨hm, hres⟩ := collect_get hc i hi
    exact ⟨hm, (resolve_escalate hfind hres).2⟩

/-- C3 witness: a deny matched only by two escalate forbid policies yields
ESCALATE with both metadata entries and their escalate targets. -/
theorem pure_escalation_witness :
    convert_cedar_response_to_adjudication
        [escalateForbidPolicy, escalateForbidPolicyB]
        { decision := "Deny", reason := ["policy1", "policy2"] } =
      .ok { decision := .ESCALATE, reason := "Escalated by policies"
          , policies := [ { id := "escalate-execute", description := ""
                          , escalate := true, escalate_arg := "security-team"
                          , custom := [] }
                        , { id := "escalate-2", description := ""
                          , escalate := true, escalate_arg := "team-b"
                          , custom := [] } ] } := by
  have h := pure_escalation
    [escalateForbidPolicy, escalateForbidPolicyB]
    { decision := "Deny", reason := ["policy1", "policy2"] }
    [ { id := "escalate-execute", description := ""
      , escalate := true, escalate_arg := "security-team", custom := [] }
    , { id := "escalate-2", description := ""
      , escalate := true, escalate_arg := "team-b", custom := [] } ]
    rfl rfl (by simp)
    (by
      intro pid hpid
      rcases List.mem_cons.mp hpid with h1 | h1
      · exact ⟨escalateForbidPolicy, by rw [h1]; decide, rfl⟩
      · rcases List.mem_cons.mp h1 with h2 | h2
        · exact ⟨escalateForbidPolicyB, by rw [h2]; decide, rfl⟩
        · simp at h2)
  exact h.1

/-- C10: every adjudication built from an evaluator response is homogeneous
in escalation flags: ALLOW and DENY carry only non-escalate metadata, and
ESCALATE carries only escalate metadata and is never empty. -/
theorem adjudication_escalation_homogeneity (ps : List CedarPolicy)
    (resp : CedarResponse) (adj : Adjudication)
    (h : convert_cedar_response_to_adjudication ps resp = .ok adj) :
    ((adj.decision = .DENY ∨ adj.decision = .ALLOW) →
       ∀ m ∈ adj.policies, m.escalate = false) ∧
    (adj.decision = .ESCALATE →
       (∀ m ∈ adj.policies, m.escalate = true) ∧ adj.policies ≠ []) := by
  unfold convert_cedar_response_to_adjudication at h
  cases hcoll : collect_policy_metadata ps resp.reason with
  | error e => rw [hcoll] at h; cases h
  | ok metas =>
    rw [hcoll] at h
    simp only at h
    split at h
    · cases h
      refine ⟨?_, ?_⟩
      · intro _ m hm
        simpa using (List.mem_filter.mp hm).2
      · intro habs
        cases habs
    · split at h
      · cases h
        refine ⟨?_, ?_⟩
        · intro _ m hm
          simpa using (List.mem_filter.mp hm).2
        · intro habs
          cases habs
      · split at h
        · rename_i hc2
          cases h
          refine ⟨?_, ?_⟩
          · intro habs
            rcases habs with habs | habs <;> simp at habs
          · intro _
            refine ⟨?_, ?_⟩
            · intro m hm
              have hm' : m ∈ metas.filter (fun m => m.escalate) := hm
              simpa using (List.mem_filter.mp hm').2
            · intro h0
              have h0' : metas.filter (fun m => m.escalate) = [] := h0
              rw [h0'] at hc2
              simp at hc2
        · cases h
          refine ⟨?_, ?_⟩
          · intro _ m hm
            simp at hm
          · intro habs
            cases habs

/-- C10 witness: homogeneity at a concrete denied response. -/
theorem adjudication_escalation_homogeneity_witness :
    ({ id := "deny-execute", description := "Dangerous command"
     , escalate := false, escalate_arg := "", custom := [] } :
       PolicyMetadata).escalate = false := by
  have h := adjudication_escalation_homogeneity
    [plainForbidPolicy, escalateForbidPolicy]
    { decision := "Deny", reason := ["policy0", "policy1"] }
    { decision := .DENY, reason := "Denied by policies"
    , policies := [ { id := "deny-execute", description := "Dangerous command"
                    , escalate := false, escalate_arg := "", custom := [] } ] }
    rfl
  exact h.1 (Or.inl rfl) _ (by simp)

/-- Every adjudicate call, whatever its routing, increments the step
counter once and upserts it onto the Trajectory entity before routing. -/
theorem adjudicate_state (ns : String) (agent : Agent) (ps : List CedarPolicy)
    (ev : Request → CedarResponse) (st : HarnessState)
    (stage : Stage) (role : Role) (msg_id : String) (content : Content) :
    (adjudicate ns agent ps ev st stage role msg_id content).1 =
      { trajectory_id := st.trajectory_id
      , trajectory_step_count := st.trajectory_step_count + 1
      , traj_entity_step_count := st.trajectory_step_count + 1 } := by
  cases stage <;> cases content <;> rfl

theorem run_adjudications_state (ns : String) (agent : Agent)
    (ps : List CedarPolicy) (ev : Request → CedarResponse)
    (calls : List CallInput) : ∀ st : HarnessState,
    (run_adjudications ns agent ps ev st calls).trajectory_step_count =
      st.trajectory_step_count + calls.length ∧
    (st.traj_entity_step_count = st.trajectory_step_count →
      (run_adjudications ns agent ps ev st calls).traj_entity_step_count =
        st.trajectory_step_count + calls.length) := by
  induction calls with
  | nil => intro st; simp [run_adjudications]
  | cons c rest ih =>
    intro st
    have hstep := adjudicate_state ns agent ps ev st c.stage c.role c.msg_id c.content
    have hrun : run_adjudications ns agent ps ev st (c :: rest) =
        run_adjudications ns agent ps ev
          (adjudicate ns agent ps ev st c.stage c.role c.msg_id c.content).1 rest := rfl
    rw [hrun, hstep]
    obtain ⟨h1, h2⟩ := ih
      { trajectory_id := st.trajectory_id
      , trajectory_step_count := st.trajectory_step_count + 1
      , traj_entity_step_count := st.trajectory_step_count + 1 }
    refine ⟨?_, ?_⟩
    · rw [h1]; simp; omega
    · intro _; rw [h2 rfl]; simp; omega

theorem observed_step_counts_range (ns : String) (agent : Agent)
    (ps : List CedarPolicy) (ev : Request → CedarResponse)
    (calls : List CallInput) : ∀ st : HarnessState,
    observed_step_counts ns agent ps ev st calls =
      List.range' (st.trajectory_step_count + 1) calls.length := by
  induction calls with
  | nil => intro st; simp [observed_step_counts]
  | cons c rest ih =>
    intro st
    have hstep := adjudicate_state ns agent ps ev st c.stage c.role c.msg_id c.content
    have hobs : observed_step_counts ns agent ps ev st (c :: rest) =
        (adjudicate ns agent ps ev st c.stage c.role c.msg_id c.content).1.traj_entity_step_count ::
          observed_step_counts ns agent ps ev
            (adjudicate ns agent ps ev st c.stage c.role c.msg_id c.content).1 rest := rfl
    rw [hobs, hstep]
    rw [ih]
    simp [List.range'_succ]

/-- C6: the initialization resets the step counter to zero; over any
sequence of N adjudicate calls the Trajectory entity attribute observed by
the evaluator during the successive calls is 1, 2, ..., N (so the Nth call
observes N), and the step counter after the N calls equals N, incremented
exactly once per call. -/
theorem step_counter_monotonic (ns : String) (agent : Agent)
    (ps : List CedarPolicy) (ev : Request → CedarResponse) (tid : String)
    (calls : List CallInput) :
    (initTrajectoryState tid).trajectory_step_count = 0 ∧
    observed_step_counts ns agent ps ev (initTrajectoryState tid) calls =
      List.range' 1 calls.length ∧
    (run_adjudications ns agent ps ev (initTrajectoryState tid) calls).trajectory_step_count
      = calls.length ∧
    (run_adjudications ns agent ps ev (initTrajectoryState tid) calls).traj_entity_step_count
      = calls.length := by
  obtain ⟨h1, h2⟩ := run_adjudications_state ns agent ps ev calls (initTrajectoryState tid)
  refine ⟨rfl, ?_, ?_, ?_⟩
  · rw [observed_step_counts_range]
    rfl
  · rw [h1]
    simp [initTrajectoryState]
  · rw [h2 rfl]
    simp [initTrajectoryState]

/-- An evaluator that denies everything with no matching policies, used as
a concrete evaluator in witnesses. -/
def evDenyAll : Request → CedarResponse :=
  fun _ => { decision := "Deny", reason := [] }

/-- An agent with no tools, used as a concrete fixture. -/
def emptyAgent : Agent :=
  { id := "agent-1", provider_id := "prov", name := "TestAgent"
  , description := "A test agent", instruction := "Do testing", tools := [] }

/-- C9 counterexample: an unrouted (stage, content) combination is allowed
by default, but the reason string starts with a capital N, not the claimed
all-lowercase string. -/
theorem nontool_default_reason_cex :
    (adjudicate "TestAgent" emptyAgent [] evDenyAll (initTrajectoryState "t")
        Stage.POST_RUN Role.USER "m" (Content.promptC "hi")).2 =
      .ok { decision := .ALLOW, reason := "Non-tool content allowed by default"
          , policies := [] }
    ∧ ("Non-tool content allowed by default" : String) ≠
        "non-tool content allowed by default" :=
  ⟨rfl, by decide⟩

/-- C9 amended: every (stage, content) combination other than the three
routed shapes is allowed by default with the fixed reason "Non-tool content
allowed by default" and an empty policy list, for every evaluator (so the
evaluator is never consulted). -/
theorem nontool_default_allow (ns : String) (agent : Agent)
    (ps : List CedarPolicy) (ev : Request → CedarResponse) (st : HarnessState)
    (stage : Stage) (role : Role) (msg_id : String) (content : Content)
    (h : routes_to_evaluator stage content = false) :
    (adjudicate ns agent ps ev st stage role msg_id content).2 =
      .ok { decision := .ALLOW, reason := "Non-tool content allowed by default"
          , policies := [] } := by
  cases stage <;> cases content <;>
    first
      | rfl
      | simp [routes_to_evaluator] at h

/-- C9 witness: the default-allow path at a concrete unrouted call. -/
theorem nontool_default_allow_witness :
    (adjudicate "TestAgent" emptyAgent [] evDenyAll (initTrajectoryState "t")
        Stage.PRE_RUN Role.USER "m" (Content.promptC "start")).2 =
      .ok { decision := .ALLOW, reason := "Non-tool content allowed by default"
          , policies := [] } :=
  nontool_default_allow "TestAgent" emptyAgent [] evDenyAll
    (initTrajectoryState "t") Stage.PRE_RUN Role.USER "m" (Content.promptC "start") rfl

/-- The load failure condition transcribed from the claim: a policy is
rejected when it lacks an id annotation, or carries escalate while its
effect is not Forbid. -/
def spec_load_rejects (p : CedarPolicy) : Bool :=
  (annGet p.annots "id").isNone || escalate_violation p

/-- Whether the validation loop will log a duplicate-id warning: some
policy carries an id annotation equal to one already seen (an earlier
policy id, starting from the given seen set). -/
def will_warn (seen : List String) : List CedarPolicy → Bool
  | [] => false
  | p :: rest =>
    match annGet p.annots "id" with
    | none => false
    | some pid => if pid ∈ seen then true else will_warn (pid :: seen) rest

theorem validate_aux_ok (l : List CedarPolicy)
    (hgood : ∀ p ∈ l, spec_load_rejects p = false) :
    ∀ seen warnings, ∃ ws, validate_policies_aux seen warnings l = .ok ws := by
  induction l with
  | nil => intro seen warnings; exact ⟨warnings.reverse, rfl⟩
  | cons p rest ih =>
    intro seen warnings
    have hp := hgood p (by simp)
    cases hidv : annGet p.annots "id" with
    | none =>
      exfalso
      unfold spec_load_rejects at hp
      rw [hidv] at hp
      simp at hp
    | some pid =>
      have hrest : ∀ q ∈ rest, spec_load_rejects q = false :=
        fun q hq => hgood q (by simp [hq])
      have hcond : escalate_violation p = false := by
        unfold spec_load_rejects at hp
        rw [hidv] at hp
        simpa using hp
      have hstep : validate_policies_aux seen warnings (p :: rest) =
          validate_policies_aux (pid :: seen)
            (if pid ∈ seen
             then ("Duplicate policy @id: " ++ pid) :: warnings else warnings)
            rest := by
        simp only [validate_policies_aux]
        rw [hidv]
        simp [hcond]
      rw [hstep]
      exact ih hrest (pid :: seen) _

theorem validate_aux_error (l : List CedarPolicy)
    (hbad : ∃ p ∈ l, spec_load_rejects p = true) :
    ∀ seen warnings, ∃ msg,
      validate_policies_aux seen warnings l = .error (.valueError msg) := by
  induction l with
  | nil => simp at hbad
  | cons p rest ih =>
    intro seen warnings
    by_cases hp : spec_load_rejects p = true
    · cases hidv : annGet p.annots "id" with
      | none =>
        exact ⟨_, by unfold validate_policies_aux; rw [hidv]⟩
      | some pid =>
        have hcond : escalate_violation p = true := by
          unfold spec_load_rejects at hp
          rw [hidv] at hp
          simpa using hp
        have hstep : validate_policies_aux seen warnings (p :: rest) =
            .error (.valueError
              ("Policy " ++ pid ++ " has @escalate but is not a forbid policy. " ++
               "@escalate is only valid on forbid policies.")) := by
          simp only [validate_policies_aux]
          rw [hidv]
          simp [hcond]
        exact ⟨_, hstep⟩
    · have hbad' : ∃ q ∈ rest, spec_load_rejects q = true := by
        rcases hbad with ⟨q, hq, hqr⟩
        rcases List.mem_cons.mp hq with h | h
        · rw [h] at hqr; exact absurd hqr hp
        · exact ⟨q, h, hqr⟩
      cases hidv : annGet p.annots "id" with
      | none =>
        exact ⟨_, by unfold validate_policies_aux; rw [hidv]⟩
      | some pid =>
        have hcond : escalate_violation p = false := by
          unfold spec_load_rejects at hp
          rw [hidv] at hp
          simpa using hp
        have hstep : validate_policies_aux seen warnings (p :: rest) =
            validate_policies_aux (pid :: seen)
              (if pid ∈ seen
               then ("Duplicate policy @id: " ++ pid) :: warnings else warnings)
              rest := by
          simp only [validate_policies_aux]
          rw [hidv]
          simp [hcond]
        rw [hstep]
        exact ih hbad' (pid :: seen) _

theorem validate_aux_error_shape (l : List CedarPolicy) :
    ∀ seen warnings e, validate_policies_aux seen warnings l = .error e →
      ∃ msg, e = .valueError msg := by
  induction l with
  | nil => intro seen warnings e h; cases h
  | cons p rest ih =>
    intro seen warnings e h
    unfold validate_policies_aux at h
    cases hidv : annGet p.annots "id" with
    | none =>
      rw [hidv] at h
      cases h
      exact ⟨_, rfl⟩
    | some pid =>
      simp only [hidv] at h
      by_cases hcond : escalate_violation p = true
      · rw [hcond, if_pos rfl] at h
        cases h
        exact ⟨_, rfl⟩
      · rw [Bool.not_eq_true] at hcond
        rw [hcond, if_neg Bool.false_ne_true] at h
        exact ih _ _ e h

theorem validate_aux_warn_mono (l : List CedarPolicy) :
    ∀ seen warnings ws, validate_policies_aux seen warnings l = .ok ws →
      warnings.length ≤ ws.length := by
  induction l with
  | nil =>
    intro seen warnings ws h
    unfold validate_policies_aux at h
    cases h
    simp
  | cons p rest ih =>
    intro seen warnings ws h
    unfold validate_policies_aux at h
    cases hidv : annGet p.annots "id" with
    | none => rw [hidv] at h; cases h
    | some pid =>
      simp only [hidv] at h
      by_cases hcond : escalate_violation p = true
      · rw [hcond, if_pos rfl] at h; cases h
      · rw [Bool.not_eq_true] at hcond
        rw [hcond, if_neg Bool.false_ne_true] at h
        have := ih _ _ _ h
        by_cases hseen : pid ∈ seen
        · rw [if_pos hseen] at this
          simp at this
          omega
        · rw [if_neg hseen] at this
          exact this

theorem validate_aux_warn (l : List CedarPolicy) :
    ∀ seen warnings ws, validate_policies_aux seen warnings l = .ok ws →
      will_warn seen l = true → ws ≠ [] := by
  induction l with
  | nil => intro seen warnings ws _ hw; simp [will_warn] at hw
  | cons p rest ih =>
    intro seen warnings ws h hw
    unfold validate_policies_aux at h
    unfold will_warn at hw
    cases hidv : annGet p.annots "id" with
    | none => rw [hidv] at hw; cases hw
    | some pid =>
      simp only [hidv] at h
      simp only [hidv] at hw
      by_cases hcond : escalate_violation p = true
      · rw [hcond, if_pos rfl] at h; cases h
      · rw [Bool.not_eq_true] at hcond
        rw [hcond, if_neg Bool.false_ne_true] at h
        by_cases hseen : pid ∈ seen
        · rw [if_pos hseen] at h
          have hlen := validate_aux_warn_mono rest _ _ _ h
          intro h0
          rw [h0] at hlen
          simp at hlen
        · rw [if_neg hseen] at h
          rw [if_neg hseen] at hw
          exact ih _ _ _ h hw

/-- C4 counterexample: loading a policy set with escalate on a permit
policy fails with ValueError, which is not the sondera PolicyError class. -/
theorem load_error_type_cex :
    validate_policy_set [escalatePermitPolicy] =
      .error (.valueError ("Policy esc-permit has @escalate but is not a forbid policy. @escalate is only valid on forbid policies.")) ∧
    PyExc.isPolicyError (.valueError ("Policy esc-permit has @escalate but is not a forbid policy. @escalate is only valid on forbid policies.")) = false :=
  ⟨rfl, rfl⟩

/-- C4 amended: loading fails, with ValueError, exactly when some policy
lacks an id annotation or carries escalate on a non-forbid effect; a
duplicate id never fails the load and is surfaced as a logged warning. -/
theorem load_time_validation (policies : List CedarPolicy) :
    ((∃ ws, validate_policy_set policies = .ok ws) ↔
       ∀ p ∈ policies, spec_load_rejects p = false) ∧
    (∀ e, validate_policy_set policies = .error e →
       ∃ msg, e = .valueError msg ∧ e.isPolicyError = false) ∧
    ((∀ p ∈ policies, spec_load_rejects p = false) →
       ∀ ws, validate_policy_set policies = .ok ws →
         (will_warn [] policies = true → ws ≠ [])) := by
  refine ⟨⟨?_, ?_⟩, ?_, ?_⟩
  · intro ⟨ws, hws⟩ p hp
    by_contra hbad
    rw [Bool.not_eq_false] at hbad
    obtain ⟨msg, hmsg⟩ := validate_aux_error policies ⟨p, hp, hbad⟩ [] []
    rw [validate_policy_set] at hws
    rw [hws] at hmsg
    cases hmsg
  · intro hgood
    exact validate_aux_ok policies hgood [] []
  · intro e he
    obtain ⟨msg, hmsg⟩ := validate_aux_error_shape policies [] [] e he
    exact ⟨msg, hmsg, by rw [hmsg]; rfl⟩
  · intro _ ws hws hw
    exact validate_aux_warn policies [] [] ws hws hw

/-- Two permit policies sharing the same id annotation. -/
def dupIdPolicies : List CedarPolicy :=
  [ { internalId := "p0", effect := "Permit", annots := [("id", "dup")] }
  , { internalId := "p1", effect := "Permit", annots := [("id", "dup")] } ]

/-- C4 witness: a duplicate id loads successfully and produces a non-empty
warning list. -/
theorem load_time_validation_witness :
    validate_policy_set dupIdPolicies = .ok ["Duplicate policy @id: dup"] ∧
    (["Duplicate policy @id: dup"] : List String) ≠ [] := by
  have hv : validate_policy_set dupIdPolicies = .ok ["Duplicate policy @id: dup"] := rfl
  have hne := (load_time_validation dupIdPolicies).2.2 (by decide)
    ["Duplicate policy @id: dup"] hv (by decide)
  exact ⟨hv, hne⟩

/-- First of two tools whose names sanitize identically. -/
def collideToolA : Tool :=
  { id := none, name := "a b", description := "first tool"
  , parameters_json_schema := none, response_json_schema := none }

/-- Second of two tools whose names sanitize identically. -/
def collideToolB : Tool :=
  { id := none, name := "a-b", description := "second tool"
  , parameters_json_schema := none, response_json_schema := none }

/-- An agent carrying two distinct tools that sanitize to the same action
identifier. -/
def collidingAgent : Agent :=
  { id := "agent-5", provider_id := "prov", name := "Agent5"
  , description := "", instruction := "", tools := [collideToolA, collideToolB] }

/-- The action a schema-less tool synthesizes to: only the two string
fallbacks in its context. -/
def fallbackOnlyAction : Action :=
  { appliesTo := { principalTypes := ["Agent"], resourceTypes := ["Trajectory"]
                 , context := some (.Record
                     [ ("parameters_json", .Str, false)
                     , ("response_json", .Str, false) ]) } }

/-- C5 counterexample: an agent with two distinct tool names that sanitize
to the same identifier synthesizes successfully (no error is raised) and
the schema carries a single action for the collided identifier plus Prompt;
the collision is silently absorbed, not rejected. -/
theorem sanitization_collision_cex :
    Except.map schema_action_names (agent_to_cedar_schema collidingAgent) =
      .ok ["a_b", "Prompt"] ∧
    collideToolA.name ≠ collideToolB.name :=
  ⟨rfl, by decide⟩

/-- C5 amended: names sanitize by replacing spaces and dashes with
underscores, and when two tools sanitize to the same identifier the
synthesis does not reject: the later tool silently replaces the earlier
one in the action map. -/
theorem sanitization_overwrite (agent : Agent) (t1 t2 : Tool) (a1 a2 : Action)
    (htools : agent.tools = [t1, t2])
    (hsan : sanitize_name t1.name = sanitize_name t2.name)
    (hprompt : sanitize_name t1.name ≠ "Prompt")
    (h1 : tool_to_action t1 = .ok a1)
    (h2 : tool_to_action t2 = .ok a2) :
    sanitize_name "my-special tool" = "my_special_tool" ∧
    Except.map schema_actions (agent_to_cedar_schema agent) =
      .ok [(sanitize_name t1.name, a2), ("Prompt", prompt_action)] := by
  refine ⟨by decide, ?_⟩
  have e1 : dictInsert ([] : List (String × Action)) (sanitize_name t1.name) a1 =
      [(sanitize_name t1.name, a1)] := by
    simp [dictInsert]
  have e2 : dictInsert [(sanitize_name t1.name, a1)] (sanitize_name t2.name) a2 =
      [(sanitize_name t1.name, a2)] := by
    rw [← hsan]
    simp [dictInsert]
  have e3 : dictInsert [(sanitize_name t1.name, a2)] "Prompt" prompt_action =
      [(sanitize_name t1.name, a2), ("Prompt", prompt_action)] := by
    simp [dictInsert, hprompt]
  unfold agent_to_cedar_schema
  rw [htools]
  simp [List.foldlM_cons, List.foldlM_nil, h1, h2, e1, e2, e3, schema_actions,
    except_ok_bind, except_map_ok]

/-- C5 witness: the overwrite at the concrete colliding agent. -/
theorem sanitization_overwrite_witness :
    Except.map schema_actions (agent_to_cedar_schema collidingAgent) =
      .ok [(sanitize_name collideToolA.name, fallbackOnlyAction)
          , ("Prompt", prompt_action)] :=
  (sanitization_overwrite collidingAgent collideToolA collideToolB
    fallbackOnlyAction fallbackOnlyAction rfl (by decide) (by decide)
    rfl rfl).2

/-- The conversion of any non-dict schema value is the string type. -/
theorem jstc_non_obj (j : Json) (hj : ∀ fields, j ≠ Json.obj fields) :
    json_schema_to_cedar_type j = .ok SchemaType.Str := by
  cases j with
  | obj fields => exact absurd rfl (hj fields)
  | null => simp [json_schema_to_cedar_type]
  | bool b => simp [json_schema_to_cedar_type]
  | num n => simp [json_schema_to_cedar_type]
  | str s => simp [json_schema_to_cedar_type]
  | arr xs => simp [json_schema_to_cedar_type]

/-- A missing type tag defaults to the object tag. -/
theorem pyTypeTag_missing (fields : List (String × Json))
    (h : pyGet fields "type" = none) : pyTypeTag fields = .ok "object" := by
  simp [pyTypeTag, h]

/-- The object branch of the conversion builds a Record from the converted
properties. -/
theorem jstc_obj_object (fields : List (String × Json)) (reqd : List Json)
    (props : List (String × Json)) (attrs : List (String × SchemaType × Bool))
    (hty : pyTypeTag fields = .ok "object")
    (hreq : pyRequired fields = .ok reqd)
    (hp : pyProps fields = .ok props)
    (hconv : convert_properties reqd props = .ok attrs) :
    json_schema_to_cedar_type (Json.obj fields) = .ok (SchemaType.Record attrs) := by
  simp [json_schema_to_cedar_type, hty, hreq]
  split
  · rename_i e heq
    rw [hp] at heq
    cases heq
  · rename_i props2 heq
    rw [hp] at heq
    injection heq with heq
    subst heq
    simp [hconv]

/-- The empty properties list converts to no attributes. -/
theorem convert_properties_nil (reqd : List Json) :
    convert_properties reqd [] = .ok [] := by
  simp [convert_properties]

/-- One step of the properties loop: the attribute converts its schema and
is required exactly when its name is in the required set. -/
theorem convert_properties_cons (reqd : List Json) (n : String) (pj : Json)
    (rest : List (String × Json)) (t : SchemaType)
    (restAttrs : List (String × SchemaType × Bool))
    (ht : json_schema_to_cedar_type pj = .ok t)
    (hrest : convert_properties reqd rest = .ok restAttrs) :
    convert_properties reqd ((n, pj) :: rest) =
      .ok ((n, t, reqd.any (jsonStrEq n)) :: restAttrs) := by
  simp [convert_properties, ht, hrest]

/-- The array branch of the conversion builds a Set of the items type. -/
theorem jstc_obj_array (fields : List (String × Json)) (items : Json)
    (elemTy : SchemaType)
    (hty : pyTypeTag fields = .ok "array")
    (hit : pyGet fields "items" = some items)
    (hel : json_schema_to_cedar_type items = .ok elemTy) :
    json_schema_to_cedar_type (Json.obj fields) = .ok (SchemaType.SetOf elemTy) := by
  simp [json_schema_to_cedar_type, hty]
  split
  · rename_i items2 heq
    rw [hit] at heq
    injection heq with heq
    subst heq
    simp [hel]
  · rename_i heq
    rw [hit] at heq
    cases heq

/-- The string tag converts to the string type. -/
theorem jstc_obj_string (fields : List (String × Json))
    (hty : pyTypeTag fields = .ok "string") :
    json_schema_to_cedar_type (Json.obj fields) = .ok SchemaType.Str := by
  simp [json_schema_to_cedar_type, hty]

/-- The number and integer tags convert to Long. -/
theorem jstc_obj_number (fields : List (String × Json)) (jt : String)
    (hty : pyTypeTag fields = .ok jt) (hnum : jt = "number" ∨ jt = "integer") :
    json_schema_to_cedar_type (Json.obj fields) = .ok SchemaType.Long := by
  rcases hnum with h | h <;> subst h <;>
    simp [json_schema_to_cedar_type, hty]

/-- The boolean tag converts to Boolean. -/
theorem jstc_obj_boolean (fields : List (String × Json))
    (hty : pyTypeTag fields = .ok "boolean") :
    json_schema_to_cedar_type (Json.obj fields) = .ok SchemaType.Boolean := by
  simp [json_schema_to_cedar_type, hty]

/-- Any other string tag converts to the string type. -/
theorem jstc_obj_unknown (fields : List (String × Json)) (jt : String)
    (hty : pyTypeTag fields = .ok jt)
    (hnot : jt ∉ (["object", "array", "string", "number", "integer", "boolean"] :
      List String)) :
    json_schema_to_cedar_type (Json.obj fields) = .ok SchemaType.Str := by
  have h1 : jt ≠ "object" := fun h => hnot (by simp [h])
  have h2 : jt ≠ "array" := fun h => hnot (by simp [h])
  have h3 : jt ≠ "string" := fun h => hnot (by simp [h])
  have h4 : jt ≠ "number" := fun h => hnot (by simp [h])
  have h5 : jt ≠ "integer" := fun h => hnot (by simp [h])
  have h6 : jt ≠ "boolean" := fun h => hnot (by simp [h])
  simp [json_schema_to_cedar_type, hty, h1, h2, h3, h4, h5, h6]

/-- C7 counterexample: a schema with a missing type tag converts to a
Record (object default), not to the string type. -/
theorem json_schema_missing_type_cex :
    json_schema_to_cedar_type (Json.obj []) = .ok (SchemaType.Record []) ∧
    json_schema_to_cedar_type (Json.obj []) ≠ .ok SchemaType.Str := by
  have h : json_schema_to_cedar_type (Json.obj []) = .ok (SchemaType.Record []) := by
    simp [json_schema_to_cedar_type, pyTypeTag, pyGet, pyRequired, pyProps,
      convert_properties]
  refine ⟨h, ?_⟩
  rw [h]
  intro habs
  injection habs with habs
  exact SchemaType.noConfusion habs

/-- C7 amended: the conversion maps non-dict input to string; a missing
type tag defaults to object; the object case recurses over the properties
with each attribute required exactly when its name is in the required list;
array maps to a Set of its items type; string, number, integer and boolean
map directly; an unrecognized string tag maps to string. -/
theorem json_schema_type_mapping :
    (∀ j : Json, (∀ fields, j ≠ Json.obj fields) →
       json_schema_to_cedar_type j = .ok SchemaType.Str) ∧
    (∀ fields, pyGet fields "type" = none → pyTypeTag fields = .ok "object") ∧
    (∀ fields reqd props attrs,
       pyTypeTag fields = .ok "object" →
       pyRequired fields = .ok reqd →
       pyProps fields = .ok props →
       convert_properties reqd props = .ok attrs →
       json_schema_to_cedar_type (Json.obj fields) = .ok (SchemaType.Record attrs)) ∧
    (∀ reqd n pj rest t restAttrs,
       json_schema_to_cedar_type pj = .ok t →
       convert_properties reqd rest = .ok restAttrs →
       convert_properties reqd ((n, pj) :: rest) =
         .ok ((n, t, reqd.any (jsonStrEq n)) :: restAttrs)) ∧
    (∀ fields items elemTy,
       pyTypeTag fields = .ok "array" →
       pyGet fields "items" = some items →
       json_schema_to_cedar_type items = .ok elemTy →
       json_schema_to_cedar_type (Json.obj fields) = .ok (SchemaType.SetOf elemTy)) ∧
    (∀ fields, pyTypeTag fields = .ok "string" →
       json_schema_to_cedar_type (Json.obj fields) = .ok SchemaType.Str) ∧
    (∀ fields jt, pyTypeTag fields = .ok jt → (jt = "number" ∨ jt = "integer") →
       json_schema_to_cedar_type (Json.obj fields) = .ok SchemaType.Long) ∧
    (∀ fields, pyTypeTag fields = .ok "boolean" →
       json_schema_to_cedar_type (Json.obj fields) = .ok SchemaType.Boolean) ∧
    (∀ fields jt, pyTypeTag fields = .ok jt →
       jt ∉ (["object", "array", "string", "number", "integer", "boolean"] :
         List String) →
       json_schema_to_cedar_type (Json.obj fields) = .ok SchemaType.Str) :=
  ⟨jstc_non_obj, pyTypeTag_missing, jstc_obj_object, convert_properties_cons,
   jstc_obj_array, jstc_obj_string, jstc_obj_number, jstc_obj_boolean,
   jstc_obj_unknown⟩

/-- C7 witness: the object case at a concrete schema with one required and
one optional property. -/
theorem json_schema_type_mapping_witness :
    json_schema_to_cedar_type (Json.obj
      [ ("type", Json.str "object")
      , ("properties", Json.obj
          [ ("path", Json.obj [("type", Json.str "string")])
          , ("size", Json.obj [("type", Json.str "integer")]) ])
      , ("required", Json.arr [Json.str "path"]) ]) =
      .ok (SchemaType.Record
        [ ("path", SchemaType.Str, true)
        , ("size", SchemaType.Long, false) ]) := by
  have hpath : json_schema_to_cedar_type (Json.obj [("type", Json.str "string")]) =
      .ok SchemaType.Str := jstc_obj_string _ rfl
  have hsize : json_schema_to_cedar_type (Json.obj [("type", Json.str "integer")]) =
      .ok SchemaType.Long := jstc_obj_number _ "integer" rfl (Or.inr rfl)
  have hconv2 : convert_properties [Json.str "path"]
      [("size", Json.obj [("type", Json.str "integer")])] =
      .ok [("size", SchemaType.Long, false)] := by
    have h := convert_properties_cons [Json.str "path"] "size"
      (Json.obj [("type", Json.str "integer")]) [] SchemaType.Long []
      hsize (convert_properties_nil _)
    simpa [jsonStrEq] using h
  have hconv1 : convert_properties [Json.str "path"]
      [ ("path", Json.obj [("type", Json.str "string")])
      , ("size", Json.obj [("type", Json.str "integer")]) ] =
      .ok [("path", SchemaType.Str, true), ("size", SchemaType.Long, false)] := by
    have h := convert_properties_cons [Json.str "path"] "path"
      (Json.obj [("type", Json.str "string")])
      [("size", Json.obj [("type", Json.str "integer")])] SchemaType.Str
      [("size", SchemaType.Long, false)] hpath hconv2
    simpa [jsonStrEq] using h
  exact json_schema_type_mapping.2.2.1 _ [Json.str "path"]
    [ ("path", Json.obj [("type", Json.str "string")])
    , ("size", Json.obj [("type", Json.str "integer")]) ]
    [ ("path", SchemaType.Str, true), ("size", SchemaType.Long, false) ]
    rfl rfl rfl hconv1

/-- The response schema dict with an object type tag and no properties. -/
def objNoPropsSchema : Json := Json.obj [("type", Json.str "object")]

/-- A tool whose declared response schema is an object with no
properties. -/
def objResponseTool : Tool :=
  { id := some "t", name := "t", description := "tool t"
  , parameters_json_schema := none
  , response_json_schema := some objNoPropsSchema }

/-- An agent carrying objResponseTool. -/
def objResponseAgent : Agent :=
  { id := "agent-8", provider_id := "prov", name := "Agent8"
  , description := "", instruction := "", tools := [objResponseTool] }

/-- C8: the two wrapping conditions disagree.  On the response schema with
type object and no properties, schema synthesis wraps the typed response as
a value record (the converted type is a Record with no attributes, failing
its non-empty check), while the POST_TOOL path sees the object type tag and
does not wrap: the typed response context field the harness sends does not
match the type the synthesizer declared. -/
theorem response_wrap_conditions_disagree :
    harness_wraps_response objNoPropsSchema = .ok false ∧
    schema_wraps_response objNoPropsSchema = .ok true ∧
    tool_to_action objResponseTool = .ok
      { appliesTo :=
        { principalTypes := ["Agent"], resourceTypes := ["Trajectory"]
        , context := some (.Record
            [ ("parameters_json", .Str, false)
            , ("response", .Record [("value", .Record [], true)], false)
            , ("response_json", .Str, false) ]) } } ∧
    tool_response_request "Agent8" objResponseAgent
        { type := "Agent8::Agent", id := "agent-8" }
        { type := "Agent8::Trajectory", id := "traj-1" } "t" (Json.str "hi") =
      .ok { principal := { type := "Agent8::Agent", id := "agent-8" }
          , action := { type := "Agent8::Action", id := "t" }
          , resource := { type := "Agent8::Trajectory", id := "traj-1" }
          , context := some
              [ ("response_json", Json.str (Json.dumps (Json.str "hi")))
              , ("response", Json.str "hi") ] } := by
  have hobj : json_schema_to_cedar_type (Json.obj [("type", Json.str "object")]) =
      .ok (SchemaType.Record []) :=
    jstc_obj_object _ [] [] [] rfl rfl rfl (convert_properties_nil _)
  refine ⟨rfl, ?_, ?_, ?_⟩
  · simp [schema_wraps_response, objNoPropsSchema, hobj, is_nonempty_record]
  · simp [tool_to_action, objResponseTool, objNoPropsSchema, hobj,
      typed_context_attribute, is_nonempty_record, except_ok_bind]
  · rfl

end Sondera
